import Mathlib

/-!
Verification of the access-control core of the hivedeck-agent repository:
file-browser path allow-listing, the sliding-window rate limiter, the
service allow-list, token issue and verification, token extraction, the
middleware chain ordering, CORS origin matching, API-key validation, and
dangerous-task confirmation.  Each Go function is embedded as an
executable Lean definition translated from the source.
-/

namespace Hivedeck

/-! ## String helpers (Go strings package semantics) -/

/-- Go strings.HasPrefix: p is an initial segment of s. -/
def hasPfx (p s : String) : Bool :=
  p.toList.isPrefixOf s.toList

/-- Go strings.HasSuffix: p is a final segment of s. -/
def hasSfx (p s : String) : Bool :=
  p.toList.reverse.isPrefixOf s.toList.reverse

/-! ## Go path/filepath.Clean (Unix), component algorithm

Splitting the path on the slash character and processing the components
with the standard dot-dot elimination reproduces the lexical cleaning
performed by the Go standard library. -/

/-- Split a character list at every slash, like Go strings.Split on "/". -/
def splitSlash : List Char → List Char → List String
  | [], cur => [String.mk cur.reverse]
  | c :: cs, cur =>
    if c = '/' then String.mk cur.reverse :: splitSlash cs []
    else splitSlash cs (c :: cur)

/-- Join components with a slash separator. -/
def joinSlash : List String → String
  | [] => ""
  | [x] => x
  | x :: xs => x ++ "/" ++ joinSlash xs

/-- One step of the dot-dot elimination, over a reversed output stack.
Empty and single-dot components are dropped; a dot-dot component pops the
last real component, is dropped at the root, and is kept only when the
path is relative and nothing is poppable. -/
def cleanStep (rooted : Bool) (out : List String) (c : String) : List String :=
  if c = "" ∨ c = "." then out
  else if c = ".." then
    match out with
    | [] => if rooted then [] else [".."]
    | x :: rest => if x = ".." then c :: x :: rest else rest
  else c :: out

/-- The cleaned component list of a path (in order). -/
def cleanComps (rooted : Bool) (path : String) : List String :=
  ((splitSlash path.toList []).foldl (cleanStep rooted) []).reverse

/-- Go filepath.Clean on Unix. -/
def clean (path : String) : String :=
  if path = "" then "."
  else
    let rooted := hasPfx "/" path
    let out := cleanComps rooted path
    if rooted then "/" ++ joinSlash out
    else if out = [] then "." else joinSlash out

/-- Go filepath.Abs on Unix, with the working directory passed
explicitly: an absolute path is cleaned, a relative one is joined to the
working directory and cleaned. -/
def absPath (cwd path : String) : String :=
  if hasPfx "/" path then clean path else clean (cwd ++ "/" ++ path)

/-! ## files.Browser (part_007) -/

/-- The file browser with its path allow-list, from files.Browser. -/
structure Browser where
  allowedPaths : List String
  allowAll : Bool
deriving DecidableEq

/-- The default allow-list used when none is configured. -/
def defaultAllowedPaths : List String :=
  ["/var/log", "/etc", "/home", "/opt", "/tmp"]

/-- files.NewBrowser: a wildcard entry switches allowAll on; an empty
non-wildcard list falls back to the default paths. -/
def NewBrowser (allowedPaths : List String) : Browser :=
  let allowAll := allowedPaths.any (fun p => p = "*")
  if ¬allowAll ∧ allowedPaths = [] then
    { allowedPaths := defaultAllowedPaths, allowAll := allowAll }
  else
    { allowedPaths := allowedPaths, allowAll := allowAll }

/-- files.Browser.IsPathAllowed: allow everything under allowAll;
otherwise resolve the request path to an absolute cleaned form and test
whether some cleaned allowed entry is a string prefix of it. -/
def Browser.IsPathAllowed (b : Browser) (cwd path : String) : Bool :=
  if b.allowAll then true
  else
    let abs := clean (absPath cwd path)
    b.allowedPaths.any (fun allowed => hasPfx (clean (absPath cwd allowed)) abs)

/-- The spec's wording of the path check: the cleaned allowed entry must
be the cleaned path itself or a path-component-aligned ancestor of it. -/
def alignedAncestor (a p : String) : Bool :=
  p = a || hasPfx (if a = "/" then a else a ++ "/") p

/-- The path-allow decision as the spec words it, for comparison with
Browser.IsPathAllowed. -/
def isPathAllowedSpec (b : Browser) (cwd path : String) : Bool :=
  if b.allowAll then true
  else
    let abs := clean (absPath cwd path)
    b.allowedPaths.any (fun allowed => alignedAncestor (clean (absPath cwd allowed)) abs)

/-! ### Dot-dot elimination facts -/

lemma cleanStep_no_dotdot (out : List String) (c : String)
    (h : ".." ∉ out) : ".." ∉ cleanStep true out c := by
  unfold cleanStep
  by_cases h1 : c = "" ∨ c = "."
  · simpa [h1] using h
  · by_cases h2 : c = ".."
    · simp only [h1, if_false, h2, if_true]
      match out with
      | [] => simp
      | x :: rest =>
        have hx : x ≠ ".." := fun hx => h (hx ▸ List.mem_cons_self x rest)
        simp only [hx, if_false]
        exact fun hm => h (List.mem_cons_of_mem x hm)
    · simp only [h1, if_false, h2, if_false]
      intro hm
      rcases List.mem_cons.mp hm with h3 | h3
      · exact h2 h3.symm
      · exact h h3

lemma foldl_cleanStep_no_dotdot (comps : List String) :
    ∀ out : List String, ".." ∉ out →
      ".." ∉ comps.foldl (cleanStep true) out := by
  induction comps with
  | nil => intro out h; simpa using h
  | cons c cs ih =>
    intro out h
    simpa using ih (cleanStep true out c) (cleanStep_no_dotdot out c h)

/-- In the cleaned component list of a rooted path, no dot-dot component
survives: traversal is neutralized by canonicalization. -/
lemma cleanComps_no_dotdot (path : String) : ".." ∉ cleanComps true path := by
  unfold cleanComps
  rw [List.mem_reverse]
  exact foldl_cleanStep_no_dotdot _ [] (by simp)

/-! ## server.RateLimiter (middleware) -/

/-- The rate limiter configuration: capacity and window, from
server.RateLimiter.  Timestamps are integers (nanoseconds). -/
structure RateLimiter where
  limit : Nat
  window : Int
deriving DecidableEq

/-- server.NewRateLimiter: the window is fixed to one second. -/
def NewRateLimiter (requestsPerSecond : Nat) : RateLimiter :=
  { limit := requestsPerSecond, window := 1000000000 }

/-- The per-key timestamp map owned by the limiter. -/
def RLState := String → List Int

/-- The initial empty request map. -/
def emptyRL : RLState := fun _ => []

/-- server.RateLimiter.Allow: keep the timestamps strictly after
now - window, deny when at least limit of them remain (storing the pruned
list), otherwise admit and append the current time. -/
def RateLimiter.Allow (rl : RateLimiter) (st : RLState) (key : String)
    (now : Int) : Bool × RLState :=
  let recent := (st key).filter (fun t => now - rl.window < t)
  if rl.limit ≤ recent.length then
    (false, fun k => if k = key then recent else st k)
  else
    (true, fun k => if k = key then recent ++ [now] else st k)

/-- Run a sequence of Allow calls from a state, returning the list of
admission results and the final state. -/
def allowRun (rl : RateLimiter) : RLState → List (String × Int) →
    List Bool × RLState
  | st, [] => ([], st)
  | st, (key, now) :: ops =>
    let r := rl.Allow st key now
    let rest := allowRun rl r.2 ops
    (r.1 :: rest.1, rest.2)

/-- The final state after a sequence of Allow calls from the empty map. -/
def allowFold (rl : RateLimiter) (ops : List (String × Int)) : RLState :=
  ops.foldl (fun s op => (rl.Allow s op.1 op.2).2) emptyRL

/-! ## systemd.Manager and config service allow-list (part_006, config.go) -/

/-- Go strings.TrimSuffix for the service-type suffix: drop one trailing
".service" when present. -/
def stripServiceSuffix (name : String) : String :=
  if hasSfx ".service" name then name.dropRight 8 else name

/-- systemd.Manager.IsAllowed: strip the service suffix, then test exact
membership in the allow-list the manager was built from (the map built by
NewManager holds true exactly for the listed names). -/
def Manager.IsAllowed (allowedServices : List String) (name : String) : Bool :=
  (stripServiceSuffix name) ∈ allowedServices

/-- config.Config.IsServiceAllowed: exact membership, no normalization. -/
def Config.IsServiceAllowed (allowedServices : List String)
    (service : String) : Bool :=
  service ∈ allowedServices

/-! ## server.AuthService (auth.go) -/

/-- server.AuthService.ValidateAPIKey: non-empty and equal to the stored
key. -/
def ValidateAPIKey (apiKey key : String) : Bool :=
  !(key == "") && (key == apiKey)

/-- The signing algorithm recorded in a token header. -/
inductive SigningAlg
  | HS256
  | RS256
deriving DecidableEq

/-- Whether the algorithm is the symmetric HMAC family accepted by the
key function in ValidateToken. -/
def SigningAlg.isHMAC : SigningAlg → Bool
  | .HS256 => true
  | .RS256 => false

/-- The claims carried by a session token, from server.JWTClaims. -/
structure JWTClaims where
  role : String
  issuedAt : Int
  expiresAt : Int
  issuer : String
deriving DecidableEq

/-- A signed token: header algorithm, claims, and a symbolic MAC over the
signing input, keyed by the secret. -/
structure SignedToken where
  alg : SigningAlg
  claims : JWTClaims
  sig : String × SigningAlg × JWTClaims
deriving DecidableEq

/-- server.AuthService.GenerateToken: expiry now + duration, issue time
now, issuer fixed, signed with HS256 under the configured secret. -/
def GenerateToken (jwtSecret : String) (now : Int) (role : String)
    (duration : Int) : SignedToken :=
  let claims : JWTClaims :=
    { role := role, issuedAt := now, expiresAt := now + duration,
      issuer := "hivedeck-agent" }
  { alg := .HS256, claims := claims, sig := (jwtSecret, .HS256, claims) }

/-- The verification failure kinds of the token library. -/
inductive TokenError
  | malformed
  | wrongSigningMethod
  | badSignature
  | expired
deriving DecidableEq

/-- server.AuthService.ValidateToken: reject a non-HMAC algorithm, then a
signature that does not verify under the configured secret, then an
expired token; otherwise return the claims. -/
def ValidateToken (jwtSecret : String) (now : Int) (tok : SignedToken) :
    Except TokenError JWTClaims :=
  if tok.alg.isHMAC = false then .error .wrongSigningMethod
  else if tok.sig ≠ (jwtSecret, tok.alg, tok.claims) then .error .badSignature
  else if tok.claims.expiresAt < now then .error .expired
  else .ok tok.claims

/-- server.ExtractToken: a present Authorization header wins, with the
Bearer marker stripped when present; only an absent header falls back to
the token query parameter.  An absent header or parameter is the empty
string, as in Go. -/
def ExtractToken (authHeader queryToken : String) : String :=
  if authHeader ≠ "" then
    if hasPfx "Bearer " authHeader then authHeader.drop 7 else authHeader
  else if queryToken ≠ "" then queryToken
  else ""

/-! ## server.CORSMiddleware origin decision -/

/-- The Access-Control-Allow-Origin value chosen by CORSMiddleware: a
wildcard configuration (exactly the one-element list of the star) always
answers the star; otherwise the request origin is echoed on an exact
match and the header is omitted (none) otherwise. -/
def corsAllowOrigin (allowedOrigins : List String) (origin : String) :
    Option String :=
  if allowedOrigins = ["*"] then some "*"
  else if origin ∈ allowedOrigins then some origin
  else none

/-! ## config.Task, tasks.Manager and Handlers.RunTask (part_002) -/

/-- config.Task: a pre-defined command with a dangerous flag. -/
structure Task where
  name : String
  command : String
  description : String
  dangerous : Bool
deriving DecidableEq

/-- The single-quote character, used inside response messages. -/
def squote : String := String.singleton (Char.ofNat 39)

/-- config.DefaultTasks as an association list. -/
def DefaultTasks : List (String × Task) :=
  [("apt-update", ⟨"apt-update", "apt update", "Update package lists", false⟩),
   ("apt-upgrade", ⟨"apt-upgrade", "apt upgrade -y", "Upgrade packages", false⟩),
   ("df", ⟨"df", "df -h", "Check disk space", false⟩),
   ("free", ⟨"free", "free -m", "Check memory", false⟩),
   ("uptime", ⟨"uptime", "uptime", "System uptime", false⟩),
   ("who", ⟨"who", "who", "Logged-in users", false⟩),
   ("pi-temp", ⟨"pi-temp", "vcgencmd measure_temp", "Pi temperature", false⟩),
   ("reboot", ⟨"reboot", "reboot", "Reboot system", true⟩)]

/-- The outcome of the RunTask handler: unknown task, dangerous task
without confirmation, or dispatch of the task command to the executor. -/
inductive RunTaskResponse
  | notFound (status : Nat) (message : String)
  | confirmRequired (status : Nat) (message : String)
  | executed (taskName : String)
deriving DecidableEq

/-- server.Handlers.RunTask: look the task up (404 when unknown); a
dangerous task without confirm=true is answered 400 with a message naming
the confirmation parameter and is not executed; otherwise the task runs. -/
def RunTask (tasks : List (String × Task)) (name confirmQuery : String) :
    RunTaskResponse :=
  match List.lookup name tasks with
  | none =>
    .notFound 404 ("task " ++ squote ++ name ++ squote ++ " not found")
  | some task =>
    if task.dangerous ∧ confirmQuery ≠ "true" then
      .confirmRequired 400
        ("task " ++ squote ++ name ++ squote ++
          " is dangerous, add ?confirm=true to execute")
    else .executed name

/-! ## The middleware chain (setup.go setupMiddleware and setupRoutes)

The global chain is recovery, logging, CORS, rate limiting; the api group
then adds authentication before the handler.  Recovery and logging do not
change the decision flow and are omitted; the remaining stages are
composed in the configured order. -/

/-- An inbound request as the chain observes it. -/
structure Request where
  method : String
  origin : String
  clientIP : String
  authHeader : String
  queryToken : String
  now : Int

/-- The observable outcome of running the chain on one request. -/
structure ChainResult where
  status : Nat
  corsHeader : Option String
  authAttempted : Bool
  handlerRan : Bool
deriving DecidableEq

/-- server.AuthMiddleware admission decision: an empty token is rejected;
the API key is tried first, then the string is parsed as a token (the
parse of the wire format is an external function) and verified. -/
def authCheck (apiKey jwtSecret : String)
    (jwtParse : String → Option SignedToken) (now : Int) (token : String) :
    Bool :=
  if token = "" then false
  else if ValidateAPIKey apiKey token then true
  else
    match jwtParse token with
    | none => false
    | some tok =>
      match ValidateToken jwtSecret now tok with
      | .ok _ => true
      | .error _ => false

/-- The api-group chain in the configured order: CORS decision (with the
OPTIONS short-circuit), then rate-limit admission, then authentication,
then the handler. -/
def runChain (origins : List String) (rl : RateLimiter) (st : RLState)
    (apiKey jwtSecret : String) (jwtParse : String → Option SignedToken)
    (req : Request) : ChainResult × RLState :=
  let ch := corsAllowOrigin origins req.origin
  if req.method = "OPTIONS" then
    ({ status := 204, corsHeader := ch, authAttempted := false,
       handlerRan := false }, st)
  else
    let ok := (rl.Allow st req.clientIP req.now).1
    let st' := (rl.Allow st req.clientIP req.now).2
    if ok = false then
      ({ status := 429, corsHeader := ch, authAttempted := false,
         handlerRan := false }, st')
    else
      let token := ExtractToken req.authHeader req.queryToken
      if authCheck apiKey jwtSecret jwtParse req.now token then
        ({ status := 200, corsHeader := ch, authAttempted := true,
           handlerRan := true }, st')
      else
        ({ status := 401, corsHeader := ch, authAttempted := true,
           handlerRan := false }, st')

/-! ## Supporting lemmas -/

lemma allow_preserves_bound (rl : RateLimiter) (st : RLState) (key : String)
    (now : Int) (h : ∀ k, (st k).length ≤ rl.limit) :
    ∀ k, ((rl.Allow st key now).2 k).length ≤ rl.limit := by
  intro k
  unfold RateLimiter.Allow
  have hlen : ((st key).filter (fun t => now - rl.window < t)).length ≤
      (st key).length := List.length_filter_le _ _
  by_cases hc : rl.limit ≤ ((st key).filter (fun t => now - rl.window < t)).length
  · simp only [hc, if_true]
    by_cases hk : k = key
    · simp only [hk, if_true]
      exact le_trans hlen (h key)
    · simp only [hk, if_false]
      exact h k
  · simp only [hc, if_false]
    by_cases hk : k = key
    · simp only [hk, if_true, List.length_append, List.length_cons,
        List.length_nil]
      omega
    · simp only [hk, if_false]
      exact h k

/-! ## Claim theorems -/

/-- C1 counterexample: with the allow-list holding only /etc, the request
path /etcetera is admitted by the code although /etc is not a
path-component-aligned ancestor of it, so the check as the claim states
it (spec wording) answers false where the code answers true. -/
theorem C1_counterexample :
    (NewBrowser ["/etc"]).IsPathAllowed "/" "/etcetera" = true ∧
    isPathAllowedSpec (NewBrowser ["/etc"]) "/" "/etcetera" = false := by
  decide

/-- C1 (amended): IsPathAllowed answers true iff the wildcard is
configured or some cleaned allowed entry is a plain string prefix of the
absolute, lexically cleaned request path — the match is not required to
be path-component-aligned.  Dot-dot traversal is neutralized by the
cleaning: the cleaned component list of a rooted path holds no dot-dot,
/etc/passwd is admitted under the /etc entry, and /etc/../root/.ssh/id_rsa
cleans to /root/.ssh/id_rsa and is denied. -/
theorem C1_path_allow_characterization :
    (∀ b : Browser, ∀ cwd path : String,
      b.IsPathAllowed cwd path =
        (b.allowAll || b.allowedPaths.any
          (fun a => hasPfx (clean (absPath cwd a)) (clean (absPath cwd path))))) ∧
    (∀ path : String, ".." ∉ cleanComps true path) ∧
    (NewBrowser ["/etc"]).IsPathAllowed "/" "/etc/passwd" = true ∧
    (NewBrowser ["/etc"]).IsPathAllowed "/" "/etc/../root/.ssh/id_rsa" = false ∧
    clean "/etc/../root/.ssh/id_rsa" = "/root/.ssh/id_rsa" := by
  refine ⟨?_, cleanComps_no_dotdot, by decide, by decide, by decide⟩
  intro b cwd path
  unfold Browser.IsPathAllowed
  by_cases hb : b.allowAll <;> simp [hb]

/-- C2: an Allow call admits and appends the current timestamp iff the
pruned list (the timestamps strictly inside the trailing window) is
strictly below capacity, denies storing only the pruned list otherwise,
and leaves every other key untouched; with capacity 5, five calls for one
key inside the window are admitted, the sixth is denied, and a call for a
different key immediately after is admitted. -/
theorem C2_rate_limiter_allow :
    (∀ rl : RateLimiter, ∀ st : RLState, ∀ key : String, ∀ now : Int,
      ((rl.Allow st key now).1 = true ↔
        ((st key).filter (fun t => now - rl.window < t)).length < rl.limit) ∧
      ((rl.Allow st key now).2 key =
        (if ((st key).filter (fun t => now - rl.window < t)).length < rl.limit
         then (st key).filter (fun t => now - rl.window < t) ++ [now]
         else (st key).filter (fun t => now - rl.window < t))) ∧
      (∀ k, k ≠ key → (rl.Allow st key now).2 k = st k)) ∧
    (allowRun (NewRateLimiter 5) emptyRL
      [("c", 0), ("c", 1), ("c", 2), ("c", 3), ("c", 4), ("c", 5),
       ("other", 6)]).1 =
      [true, true, true, true, true, false, true] := by
  refine ⟨?_, by decide⟩
  intro rl st key now
  unfold RateLimiter.Allow
  by_cases hc : rl.limit ≤ ((st key).filter (fun t => now - rl.window < t)).length
  · refine ⟨by simp [hc], by simp [hc, Nat.not_lt.mpr hc], ?_⟩
    intro k hk
    simp [hc, hk]
  · refine ⟨by simp [hc, Nat.lt_of_not_le hc], by simp [hc, Nat.lt_of_not_le hc], ?_⟩
    intro k hk
    simp [hc, hk]

/-- C2 witness: a call for key a leaves the state of key b unchanged. -/
theorem C2_rate_limiter_allow_witness :
    ((NewRateLimiter 1).Allow emptyRL "a" 0).2 "b" = emptyRL "b" :=
  (C2_rate_limiter_allow.1 (NewRateLimiter 1) emptyRL "a" 0).2.2 "b" (by decide)

/-- C3: the service capability check used on the request path strips one
.service suffix and then tests exact membership in the allow-list; a
partial name, an extended name, or an unlisted name is denied. -/
theorem C3_service_allow :
    (∀ allowed : List String, ∀ name : String,
      Manager.IsAllowed allowed name = true ↔
        stripServiceSuffix name ∈ allowed) ∧
    Manager.IsAllowed ["nginx"] "nginx" = true ∧
    Manager.IsAllowed ["nginx"] "nginx.service" = true ∧
    Manager.IsAllowed ["nginx"] "ngin" = false ∧
    Manager.IsAllowed ["nginx"] "nginx2" = false ∧
    Manager.IsAllowed ["nginx"] "mysql" = false := by
  refine ⟨?_, by decide, by decide, by decide, by decide, by decide⟩
  intro allowed name
  unfold Manager.IsAllowed
  simp

/-- C4: a request that is not a preflight and whose client key the
limiter denies is answered 429 with authentication never attempted and no
handler run. -/
theorem C4_rate_limit_short_circuit (origins : List String)
    (rl : RateLimiter) (st : RLState) (apiKey jwtSecret : String)
    (jwtParse : String → Option SignedToken) (req : Request)
    (hm : req.method ≠ "OPTIONS")
    (hd : (rl.Allow st req.clientIP req.now).1 = false) :
    (runChain origins rl st apiKey jwtSecret jwtParse req).1 =
      { status := 429, corsHeader := corsAllowOrigin origins req.origin,
        authAttempted := false, handlerRan := false } := by
  unfold runChain
  simp [hm, hd]

/-- C4 witness: with capacity zero, a GET request is answered 429 and
neither authentication nor the handler runs. -/
theorem C4_rate_limit_short_circuit_witness :
    (runChain ["*"] (NewRateLimiter 0) emptyRL "k" "s" (fun _ => none)
      { method := "GET", origin := "http://example.com", clientIP := "ip",
        authHeader := "", queryToken := "", now := 0 }).1 =
      { status := 429, corsHeader := some "*", authAttempted := false,
        handlerRan := false } :=
  C4_rate_limit_short_circuit ["*"] (NewRateLimiter 0) emptyRL "k" "s"
    (fun _ => none)
    { method := "GET", origin := "http://example.com", clientIP := "ip",
      authHeader := "", queryToken := "", now := 0 }
    (by decide) (by decide)

/-- C5: a present Authorization header with the Bearer marker yields the
remainder of the header, a present header without the marker yields the
whole header, and only an absent header yields the token query
parameter. -/
theorem C5_extract_token (h q : String) :
    (h ≠ "" → hasPfx "Bearer " h = true → ExtractToken h q = h.drop 7) ∧
    (h ≠ "" → hasPfx "Bearer " h = false → ExtractToken h q = h) ∧
    (h = "" → ExtractToken h q = q) := by
  refine ⟨?_, ?_, ?_⟩
  · intro h1 h2
    simp [ExtractToken, h1, h2]
  · intro h1 h2
    simp [ExtractToken, h1, h2]
  · intro h1
    subst h1
    by_cases hq : q = "" <;> simp [ExtractToken, hq]

/-- C5 witness: the three extraction modes at concrete requests. -/
theorem C5_extract_token_witness :
    ExtractToken "Bearer abc" "q" = "abc" ∧
    ExtractToken "raw-token" "q" = "raw-token" ∧
    ExtractToken "" "q" = "q" :=
  ⟨(C5_extract_token "Bearer abc" "q").1 (by decide) (by decide),
   (C5_extract_token "raw-token" "q").2.1 (by decide) (by decide),
   (C5_extract_token "" "q").2.2 rfl⟩

/-- C6: issuance is total (a negative ttl is not rejected) and stamps
expiresAt = now + ttl, the fixed issuer, and the requested role; a token
issued with ttl one hour verifies under the same secret at issuance time
and returns the role, while one issued with ttl minus one hour fails with
the expiry error. -/
theorem C6_token_issue_verify :
    (∀ s role : String, ∀ now ttl : Int,
      (GenerateToken s now role ttl).claims.expiresAt = now + ttl ∧
      (GenerateToken s now role ttl).claims.issuer = "hivedeck-agent" ∧
      (GenerateToken s now role ttl).claims.role = role) ∧
    (∀ s role : String, ∀ now : Int,
      ValidateToken s now (GenerateToken s now role 3600) =
        .ok { role := role, issuedAt := now, expiresAt := now + 3600,
              issuer := "hivedeck-agent" }) ∧
    (∀ s role : String, ∀ now : Int,
      ValidateToken s now (GenerateToken s now role (-3600)) =
        .error .expired) := by
  refine ⟨fun s role now ttl => ⟨rfl, rfl, rfl⟩, ?_, ?_⟩
  · intro s role now
    have hlt : ¬ (now + 3600 < now) := by omega
    simp [ValidateToken, GenerateToken, SigningAlg.isHMAC, hlt]
  · intro s role now
    have hlt : now + (-3600) < now := by omega
    simp [ValidateToken, GenerateToken, SigningAlg.isHMAC, hlt]

/-- C7: a dangerous task without confirm=true is answered with the 400
client-error response whose message names the confirmation parameter and
the task is not executed; with confirm=true it is executed. -/
theorem C7_dangerous_task_confirmation (tasks : List (String × Task))
    (name confirmQuery : String) (task : Task)
    (hfound : List.lookup name tasks = some task)
    (hdanger : task.dangerous = true) :
    (confirmQuery ≠ "true" →
      RunTask tasks name confirmQuery =
        .confirmRequired 400
          ("task " ++ squote ++ name ++ squote ++
            " is dangerous, add ?confirm=true to execute") ∧
      (∀ s, RunTask tasks name confirmQuery ≠ .executed s)) ∧
    (confirmQuery = "true" →
      RunTask tasks name confirmQuery = .executed name) := by
  constructor
  · intro hc
    constructor
    · simp [RunTask, hfound, hdanger, hc]
    · intro s
      simp [RunTask, hfound, hdanger, hc]
  · intro hc
    simp [RunTask, hfound, hdanger, hc]

/-- C7 witness: the default reboot task without confirmation is answered
400 naming confirm=true. -/
theorem C7_dangerous_task_confirmation_witness :
    RunTask DefaultTasks "reboot" "" =
      .confirmRequired 400
        ("task " ++ squote ++ "reboot" ++ squote ++
          " is dangerous, add ?confirm=true to execute") :=
  ((C7_dangerous_task_confirmation DefaultTasks "reboot" ""
      ⟨"reboot", "reboot", "Reboot system", true⟩
      (by decide) rfl).1 (by decide)).1

/-- C8: the chain always carries the CORS header computed from the
configured origins; the wildcard configuration answers the star for every
origin, and a specific configuration echoes exactly the listed origins
and omits the header otherwise. -/
theorem C8_cors_origin (origins : List String) (rl : RateLimiter)
    (st : RLState) (apiKey jwtSecret : String)
    (jwtParse : String → Option SignedToken) (req : Request) :
    ((runChain origins rl st apiKey jwtSecret jwtParse req).1.corsHeader =
      corsAllowOrigin origins req.origin) ∧
    (origins = ["*"] → corsAllowOrigin origins req.origin = some "*") ∧
    (origins ≠ ["*"] →
      corsAllowOrigin origins req.origin =
        (if req.origin ∈ origins then some req.origin else none)) := by
  refine ⟨?_, ?_, ?_⟩
  · unfold runChain
    by_cases hm : req.method = "OPTIONS"
    · simp [hm]
    · by_cases hd : (rl.Allow st req.clientIP req.now).1 = false
      · simp [hm, hd]
      · by_cases ha : authCheck apiKey jwtSecret jwtParse req.now
            (ExtractToken req.authHeader req.queryToken) = true
        · simp [hm, hd, ha]
        · simp [hm, hd, ha]
  · intro h1
    simp [corsAllowOrigin, h1]
  · intro h1
    simp [corsAllowOrigin, h1]

/-- C8 witness: the wildcard configuration answers the star for a
concrete origin. -/
theorem C8_cors_origin_witness :
    corsAllowOrigin ["*"] "http://example.com" = some "*" :=
  (C8_cors_origin ["*"] (NewRateLimiter 1) emptyRL "k" "s" (fun _ => none)
    { method := "GET", origin := "http://example.com", clientIP := "ip",
      authHeader := "", queryToken := "", now := 0 }).2.1 rfl

/-- C9: the API key check answers true iff the presented string is
non-empty and equals the stored key; the empty string is rejected even
under an empty stored key, and the stored key with a character appended
is rejected. -/
theorem C9_validate_api_key :
    (∀ apiKey key : String,
      ValidateAPIKey apiKey key = true ↔ key ≠ "" ∧ key = apiKey) ∧
    (∀ apiKey : String, ValidateAPIKey apiKey "" = false) ∧
    ValidateAPIKey "" "" = false ∧
    (∀ apiKey : String, ValidateAPIKey apiKey (apiKey ++ "x") = false) := by
  refine ⟨?_, ?_, by decide, ?_⟩
  · intro apiKey key
    simp [ValidateAPIKey, and_comm]
  · intro apiKey
    simp [ValidateAPIKey]
  · intro apiKey
    have hne : (apiKey ++ "x") ≠ apiKey := by
      intro h
      have hlen := congrArg String.length h
      rw [String.length_append, show ("x".length = 1) from rfl] at hlen
      omega
    simp [ValidateAPIKey, hne]

/-- C10: after any sequence of Allow calls starting from the empty map,
every key stores at most capacity many timestamps. -/
theorem C10_state_bounded (rl : RateLimiter) (ops : List (String × Int))
    (k : String) : ((allowFold rl ops) k).length ≤ rl.limit := by
  unfold allowFold
  suffices h : ∀ ops2 : List (String × Int), ∀ st : RLState,
      (∀ k2, (st k2).length ≤ rl.limit) →
      ∀ k2, ((ops2.foldl (fun s op => (rl.Allow s op.1 op.2).2) st) k2).length ≤
        rl.limit by
    exact h ops emptyRL (fun k2 => by simp [emptyRL]) k
  intro ops2
  induction ops2 with
  | nil =>
    intro st hst k2
    exact hst k2
  | cons op rest ih =>
    intro st hst k2
    exact ih _ (allow_preserves_bound rl st op.1 op.2 hst) k2

end Hivedeck
